import Mathlib

/-!
Verification of the AVR TWI (two-wire interface) master library:
shallow embedding of `twi/master.c` (clock configuration, bus-driver
primitives, and the bus-pirate command interpreter) together with
theorems settling the specification claims.

Machine integers are modelled as `Nat` with explicit reduction
`% 2^32` (for `uint32_t`) or `% 256` (for `uint8_t`) wherever the C
code can overflow or truncate.  The hardware (or a mock device under
test) is modelled as response streams; each bus primitive records the
operation it performs in an observable trace.
-/

namespace TWI

/-! ### TWI status codes (from avr-libc `<util/twi.h>`) -/

def TW_START : Nat := 0x08
def TW_REP_START : Nat := 0x10
def TW_MT_SLA_ACK : Nat := 0x18
def TW_MT_SLA_NACK : Nat := 0x20
def TW_MT_DATA_ACK : Nat := 0x28
def TW_MT_DATA_NACK : Nat := 0x30
def TW_MR_SLA_ACK : Nat := 0x40
def TW_MR_SLA_NACK : Nat := 0x48
def TW_MR_DATA_ACK : Nat := 0x50
def TW_MR_DATA_NACK : Nat := 0x58

/-! ### Enumerations from `twi/master.h` -/

/-- `enum TWIDataDirection_enum { Read = 1, Write = 0 }` -/
inductive TWIDataDirection where
  | Read
  | Write
deriving DecidableEq, Repr

/-- The integer value of the direction enum (`Read = 1`, `Write = 0`). -/
def TWIDataDirection.toBit : TWIDataDirection → Nat
  | .Read => 1
  | .Write => 0

/-- `enum TWIReadMode_enum { RequestMore = 1, NonLastByte = 1, LastByte = 0 }` -/
inductive TWIReadMode where
  | RequestMore
  | LastByte
deriving DecidableEq, Repr

/-! ### Bus operations, mock device, and bus state -/

/-- One observable hardware-level bus operation. -/
inductive BusOp where
  | start
  | stop
  | write (data : Nat)
  | read (mode : TWIReadMode)
  | delay
deriving DecidableEq, Repr

/-- A mock device: response streams indexed by how many operations of the
given kind have already occurred.  `startStatus k` is the TWI status
observed after the k-th start condition, `writeStatus k` the status after
the k-th byte write, `readData k` the byte clocked in by the k-th read. -/
structure MockDevice where
  startStatus : Nat → Nat
  writeStatus : Nat → Nat
  readData : Nat → Nat

/-- The driver-visible state: the device under test, per-kind operation
counters, and the trace of bus operations issued so far. -/
structure BusState where
  dev : MockDevice
  starts : Nat
  writes : Nat
  reads : Nat
  trace : List BusOp

/-- A fresh bus state for the given device. -/
def initBus (dev : MockDevice) : BusState :=
  { dev := dev, starts := 0, writes := 0, reads := 0, trace := [] }

/-! ### Bus-driver primitives (`twi/master.c`) -/

/-- `send_twi_start_condition`: issues a start condition, waits, and
returns true iff the masked status is `TW_START` or `TW_REP_START`. -/
def send_twi_start_condition (bs : BusState) : Bool × BusState :=
  let st := bs.dev.startStatus bs.starts
  (decide (st = TW_START ∨ st = TW_REP_START),
   { bs with starts := bs.starts + 1, trace := bs.trace ++ [BusOp.start] })

/-- `raw_twi_write(data)`: writes one byte (the `uint8_t` parameter
truncates to 8 bits), waits, and returns the masked TWI status. -/
def raw_twi_write (data : Nat) (bs : BusState) : Nat × BusState :=
  (bs.dev.writeStatus bs.writes,
   { bs with writes := bs.writes + 1, trace := bs.trace ++ [BusOp.write (data % 256)] })

/-- `end_twi_packet`: sends a stop condition and waits for it to clear. -/
def end_twi_packet (bs : BusState) : BusState :=
  { bs with trace := bs.trace ++ [BusOp.stop] }

/-- `send_via_twi(data)`: writes one byte, returns true iff the status is
`TW_MT_DATA_ACK`. -/
def send_via_twi (data : Nat) (bs : BusState) : Bool × BusState :=
  let r := raw_twi_write data bs
  (decide (r.1 = TW_MT_DATA_ACK), r.2)

/-- `read_via_twi(read_mode)`: clocks in one byte (acknowledging iff the
mode is `RequestMore`) and returns it. -/
def read_via_twi (mode : TWIReadMode) (bs : BusState) : Nat × BusState :=
  (bs.dev.readData bs.reads,
   { bs with reads := bs.reads + 1, trace := bs.trace ++ [BusOp.read mode] })

/-- `start_twi_communication(address, direction)`: sends a start
condition; on failure returns false immediately, otherwise transmits
`address << 1 | direction` and returns true iff the status is
`TW_MT_SLA_ACK` or `TW_MR_SLA_ACK`.  The `uint8_t address` parameter is
modelled by reducing the address modulo 256 at entry. -/
def start_twi_communication (address : Nat) (direction : TWIDataDirection)
    (bs : BusState) : Bool × BusState :=
  let s := send_twi_start_condition bs
  if !s.1 then
    (false, s.2)
  else
    let w := raw_twi_write ((address % 256) * 2 + direction.toBit) s.2
    (decide (w.1 = TW_MT_SLA_ACK ∨ w.1 = TW_MR_SLA_ACK), w.2)

/-- `ensure_twi_communication(address, direction)`: retries addressed
starts until one is not rejected.  The C loop is unbounded (`while(1)`);
it is embedded with explicit fuel: `none` means the fuel ran out before
the loop exited.  On a failed start condition it retries immediately; if
the write status is `TW_MT_SLA_NACK` or `TW_MR_DATA_NACK` it sends a stop
and retries; otherwise it breaks out of the loop. -/
def ensure_twi_communication (address : Nat) (direction : TWIDataDirection) :
    Nat → BusState → Option BusState
  | 0, _ => none
  | fuel + 1, bs =>
    let s := send_twi_start_condition bs
    if !s.1 then
      ensure_twi_communication address direction fuel s.2
    else
      let w := raw_twi_write ((address % 256) * 2 + direction.toBit) s.2
      if w.1 = TW_MT_SLA_NACK ∨ w.1 = TW_MR_DATA_NACK then
        ensure_twi_communication address direction fuel (end_twi_packet w.2)
      else
        some w.2

/-! ### Clock configuration (`twi/master.c`) -/

/-- `2^32`, the modulus of `uint32_t` arithmetic. -/
def U32 : Nat := 4294967296

/-- `clock_periods_from_prescaler(target_speed, prescaler)`:
`(F_CPU / ((2 << (2 * prescaler)) * target_speed)) - (8 >> (prescaler * 2))`
in `uint32_t` arithmetic, with `F_CPU` made an explicit parameter.  The
product and the subtraction reduce modulo `2^32`; Lean division by zero
yields 0 where the C expression would divide by zero. -/
def clock_periods_from_prescaler (fcpu target_speed prescaler : Nat) : Nat :=
  (fcpu / (((2 <<< (2 * prescaler)) * target_speed) % U32)
    + U32 - (8 >>> (prescaler * 2))) % U32

/-- The prescaler search loop of `set_up_twi_hardware`: the `do/while`
starts at `prescaler = 0` and increments while `clock_periods > 255` and
`prescaler < 3`; it returns the final `(prescaler, clock_periods)` pair. -/
def twi_prescaler_search (fcpu twi_bitrate : Nat) : Nat × Nat :=
  if clock_periods_from_prescaler fcpu twi_bitrate 0 > 255 then
    if clock_periods_from_prescaler fcpu twi_bitrate 1 > 255 then
      if clock_periods_from_prescaler fcpu twi_bitrate 2 > 255 then
        (3, clock_periods_from_prescaler fcpu twi_bitrate 3)
      else (2, clock_periods_from_prescaler fcpu twi_bitrate 2)
    else (1, clock_periods_from_prescaler fcpu twi_bitrate 1)
  else (0, clock_periods_from_prescaler fcpu twi_bitrate 0)

/-- The hardware registers written by `set_up_twi_hardware`: the two
prescaler bits of `TWSR`, and `TWBR` (an 8-bit register). -/
structure TWIClockRegisters where
  twsr_prescaler : Nat
  twbr : Nat
deriving DecidableEq, Repr

/-- `set_up_twi_hardware(twi_bitrate)`: runs the prescaler search and
unconditionally writes the result to the hardware; the assignment
`TWBR = clock_periods` truncates the `uint32_t` value to 8 bits. -/
def set_up_twi_hardware (fcpu twi_bitrate : Nat) : TWIClockRegisters :=
  { twsr_prescaler := (twi_prescaler_search fcpu twi_bitrate).1,
    twbr := (twi_prescaler_search fcpu twi_bitrate).2 % 256 }

/-! ### Bus-pirate command interpreter (`perform_bus_pirate_twi_command`)

The command is a C string, i.e. a list of character codes.  The
variadic arguments are modelled by an input list `writeValues`
(the `unsigned int` argument popped by each `w`/`W` token) and an output
list `readSlots` (the bytes stored through the `uint8_t *` argument
popped by each read token, in order of the reads). -/

/-- The interpreter state of `perform_bus_pirate_twi_command`: the local
variables `radix`, `to_transmit`, `is_transmission`, `read_count` (all
`uint8_t`), the remaining variadic write values, the bytes stored through
the read-target pointers so far, and the bus state. -/
structure InterpState where
  radix : Nat
  to_transmit : Nat
  is_transmission : Bool
  read_count : Nat
  writeValues : List Nat
  readSlots : List Nat
  bus : BusState

/-- The interpreter state at function entry:
`radix = 10, to_transmit = 0, is_transmission = 0, read_count = 0`. -/
def initInterp (dev : MockDevice) (writeValues : List Nat) : InterpState :=
  { radix := 10, to_transmit := 0, is_transmission := false, read_count := 0,
    writeValues := writeValues, readSlots := [], bus := initBus dev }

/-- The delimiter action shared by the space/comma cases (and reached by
fall-through from `w`/`W`): if `is_transmission`, send the pending byte;
then reset `radix = 10`, `to_transmit = 0`, `is_transmission = 0`. -/
def delimiterAction (s : InterpState) : InterpState :=
  let s1 := if s.is_transmission
    then { s with bus := (send_via_twi s.to_transmit s.bus).2 }
    else s
  { s1 with radix := 10, to_transmit := 0, is_transmission := false }

/-- The `default:` case of the switch: classifies a character code under
the current radix.  `some v` is the digit value when the character is a
valid lowercase-hex, uppercase-hex, decimal, or binary digit; `none`
means the character is nonsensical and skipped. -/
def digit_value (radix c : Nat) : Option Nat :=
  if 97 ≤ c ∧ c ≤ 102 ∧ radix = 16 then some (c - 97 + 10)       -- a-f, hex
  else if 65 ≤ c ∧ c ≤ 70 ∧ radix = 16 then some (c - 65 + 10)   -- A-F, hex
  else if 48 ≤ c ∧ c ≤ 57 ∧ 10 ≤ radix then some (c - 48)        -- 0-9, dec
  else if 48 ≤ c ∧ c ≤ 49 ∧ radix = 2 then some (c - 48)         -- 0-1, bin
  else none

/-- One iteration of the interpreter loop body: the `switch(*command)` on
a single character code `c`.  Character codes: 123 `{`, 91 `[`, 125 `}`,
93 `]`, 120 `x`, 98 `b`, 114 `r`, 82 `R`, 115 `s`, 83 `S`, 119 `w`,
87 `W`, 32 space, 44 comma, 38 `&`. -/
def interpStep (s : InterpState) (c : Nat) : InterpState :=
  if c = 123 ∨ c = 91 then                               -- open brace/bracket
    { s with bus := (send_twi_start_condition s.bus).2 }
  else if c = 125 ∨ c = 93 then                          -- close brace/bracket
    { s with bus := end_twi_packet s.bus }
  else if c = 120 then                                   -- x: hex radix
    { s with radix := 16 }
  else if c = 98 then                                    -- b: binary radix
    { s with radix := 2 }
  else if c = 114 ∨ c = 82 ∨ c = 115 ∨ c = 83 then       -- r R s S: read
    let mode := if c = 115 ∨ c = 83 then TWIReadMode.LastByte
                else TWIReadMode.RequestMore
    let r := read_via_twi mode s.bus
    { s with bus := r.2, readSlots := s.readSlots ++ [r.1],
             read_count := (s.read_count + 1) % 256 }
  else if c = 119 ∨ c = 87 then                          -- w W: explicit write
    delimiterAction
      { s with is_transmission := true,
               to_transmit := s.writeValues.headD 0 % 256,
               writeValues := s.writeValues.tail }
  else if c = 32 ∨ c = 44 then                           -- space/comma
    delimiterAction s
  else if c = 38 then                                    -- &: delay 1us
    { s with bus := { s.bus with trace := s.bus.trace ++ [BusOp.delay] } }
  else                                                   -- default: literal
    match digit_value s.radix c with
    | some v =>
      { s with is_transmission := true,
               to_transmit := (s.to_transmit * s.radix % 256 + v) % 256 }
    | none => s

/-- The interpreter loop: `for(; *command; ++command)` over the whole
command string. -/
def interpRun (s : InterpState) : List Nat → InterpState
  | [] => s
  | c :: cs => interpRun (interpStep s c) cs

/-- `perform_bus_pirate_twi_command(command, ...)` against a mock device:
runs the interpreter over the command and yields the final state (whose
`read_count` field is the function's return value). -/
def perform_bus_pirate_twi_command (dev : MockDevice) (command : List Nat)
    (writeValues : List Nat) : InterpState :=
  interpRun (initInterp dev writeValues) command

/-- The character codes of a command string literal. -/
def cmdBytes (command : String) : List Nat :=
  command.data.map Char.toNat

/-! ### Mock devices used by the concrete test-vector claims -/

/-- A device that acknowledges every address and data byte of the
transaction `[ 0x52 0x80 0x03 [ 0x53 s ]` (writes 0 and 3 are address
phases, acknowledged with SLA-ACK statuses; the rest with data ACK) and
grants every start condition. -/
def c3AckDev : MockDevice :=
  { startStatus := fun _ => TW_START,
    writeStatus := fun n =>
      if n = 0 then TW_MT_SLA_ACK
      else if n = 3 then TW_MR_SLA_ACK
      else TW_MT_DATA_ACK,
    readData := fun _ => 0x5A }

/-- A device that acknowledges every address and data byte of the
transaction `[0x72 0xAC [0x73 r s]` (writes 0 and 2 are address phases)
and answers the two reads with 0xAA and then 0xBB. -/
def c5AckDev : MockDevice :=
  { startStatus := fun _ => TW_START,
    writeStatus := fun n =>
      if n = 0 then TW_MT_SLA_ACK
      else if n = 2 then TW_MR_SLA_ACK
      else TW_MT_DATA_ACK,
    readData := fun k => if k = 0 then 0xAA else 0xBB }

/-- A device that always grants start conditions and answers every
addressed start with `TW_MR_SLA_NACK` (0x48), the status a slave that
declines a read-mode address produces. -/
def nackReadDev : MockDevice :=
  { startStatus := fun _ => TW_START,
    writeStatus := fun _ => TW_MR_SLA_NACK,
    readData := fun _ => 0 }

/-- Observable equality of two interpreter states: all components except
the device under test and the bytes stored through the read pointers.
Two runs related this way have issued the same bus operations. -/
def ObsEq (s t : InterpState) : Prop :=
  s.radix = t.radix ∧ s.to_transmit = t.to_transmit ∧
  s.is_transmission = t.is_transmission ∧ s.read_count = t.read_count ∧
  s.writeValues = t.writeValues ∧ s.bus.starts = t.bus.starts ∧
  s.bus.writes = t.bus.writes ∧ s.bus.reads = t.bus.reads ∧
  s.bus.trace = t.bus.trace

end TWI

namespace TWI

/-! ### Theorems for the specification claims -/

/-- Claim C1 (code evaluation at the failing input): against a device
that NAKs the very first addressed start for direction `Read` (status
`TW_MR_SLA_NACK`), `ensure_twi_communication` already returns within a
single loop iteration (fuel 1), having issued exactly one start and one
address write and no stop condition — instead of issuing a stop and
retrying as the claim requires.  The code compares against
`TW_MR_DATA_NACK` (0x58) where its own comment describes the
master-receive slave NACK (`TW_MR_SLA_NACK`, 0x48). -/
theorem C1_read_nack_returns_without_stop :
    nackReadDev.writeStatus 0 = TW_MR_SLA_NACK ∧
    TW_MR_SLA_NACK ≠ TW_MR_SLA_ACK ∧
    (ensure_twi_communication 0x39 TWIDataDirection.Read 1
        (initBus nackReadDev)).map BusState.trace
      = some [BusOp.start, BusOp.write 0x73] :=
  ⟨rfl, by decide, rfl⟩

/-- Claim C2 counterexample: at `(baseClockHz, targetBitrateHz) =
(8000000, 1)` no prescaler exponent in {0,1,2,3} yields a divisor ≤ 255,
yet `set_up_twi_hardware` does not fail: it configures the hardware,
writing prescaler 3 and the out-of-range divisor 62500 truncated to the
8-bit bitrate register (62500 mod 256 = 36). -/
theorem C2_counterexample :
    255 < clock_periods_from_prescaler 8000000 1 0 ∧
    255 < clock_periods_from_prescaler 8000000 1 1 ∧
    255 < clock_periods_from_prescaler 8000000 1 2 ∧
    255 < clock_periods_from_prescaler 8000000 1 3 ∧
    set_up_twi_hardware 8000000 1
      = { twsr_prescaler := 3, twbr := 36 } := by
  refine ⟨by decide, by decide, by decide, by decide, ?_⟩
  decide

/-- Claim C2 (amended): for every `(baseClockHz, targetBitrateHz)` pair
for which no prescaler exponent in {0,1,2,3} yields a divisor ≤ 255,
`set_up_twi_hardware` surfaces no error at all: it exits the search at
prescaler exponent 3 and writes the out-of-range divisor truncated
modulo 256 into the 8-bit bitrate register. -/
theorem C2_no_error_configures_truncated (fcpu t : Nat)
    (h0 : 255 < clock_periods_from_prescaler fcpu t 0)
    (h1 : 255 < clock_periods_from_prescaler fcpu t 1)
    (h2 : 255 < clock_periods_from_prescaler fcpu t 2)
    (_h3 : 255 < clock_periods_from_prescaler fcpu t 3) :
    set_up_twi_hardware fcpu t
      = { twsr_prescaler := 3,
          twbr := clock_periods_from_prescaler fcpu t 3 % 256 } := by
  unfold set_up_twi_hardware twi_prescaler_search
  simp only [if_pos h0, if_pos h1, if_pos h2]

/-- Witness for the amended claim C2 at `(8000000, 1)`. -/
theorem C2_no_error_configures_truncated_witness :
    set_up_twi_hardware 8000000 1
      = { twsr_prescaler := 3,
          twbr := clock_periods_from_prescaler 8000000 1 3 % 256 } :=
  C2_no_error_configures_truncated 8000000 1
    (by decide) (by decide) (by decide) (by decide)

/-- Claim C3: interpreting `[ 0x52 0x80 0x03 [ 0x53 s ]` against a mock
device that acknowledges every address and byte produces, in order,
exactly: start, write 0x52, write 0x80, write 0x03, a second start with
no intervening stop (repeated start), write 0x53, read in `LastByte`
mode, stop — and the interpreter returns `read_count = 1`. -/
theorem C3_bus_pirate_trace :
    (perform_bus_pirate_twi_command c3AckDev
        (cmdBytes ("[ 0x52 0x80 0x03 [ 0x53 s ]")) []).bus.trace
      = [BusOp.start, BusOp.write 0x52, BusOp.write 0x80, BusOp.write 0x03,
         BusOp.start, BusOp.write 0x53, BusOp.read TWIReadMode.LastByte,
         BusOp.stop] ∧
    (perform_bus_pirate_twi_command c3AckDev
        (cmdBytes ("[ 0x52 0x80 0x03 [ 0x53 s ]")) []).read_count = 1 :=
  ⟨rfl, rfl⟩

/-- Claim C5: interpreting `[0x72 0xAC [0x73 r s]` against an
always-acking mock device yields `read_count = 2`, the first read in
`RequestMore` mode and the second in `LastByte` mode, and the two bytes
read (0xAA then 0xBB from the device) are stored into the caller's first
and second read slots in that order. -/
theorem C5_bus_pirate_two_reads :
    (perform_bus_pirate_twi_command c5AckDev
        (cmdBytes ("[0x72 0xAC [0x73 r s]")) []).read_count = 2 ∧
    (perform_bus_pirate_twi_command c5AckDev
        (cmdBytes ("[0x72 0xAC [0x73 r s]")) []).bus.trace
      = [BusOp.start, BusOp.write 0x72, BusOp.write 0xAC, BusOp.start,
         BusOp.write 0x73, BusOp.read TWIReadMode.RequestMore,
         BusOp.read TWIReadMode.LastByte, BusOp.stop] ∧
    (perform_bus_pirate_twi_command c5AckDev
        (cmdBytes ("[0x72 0xAC [0x73 r s]")) []).readSlots
      = [0xAA, 0xBB] :=
  ⟨rfl, rfl, rfl⟩

/-- Claim C6: on a `w`/`W` token (code 119/87) the interpreter marks a
transmission pending, loads the accumulator from the next caller-supplied
write value, and immediately performs the delimiter action (so the byte
is sent at once and the state is reset); on a space/comma token (code
32/44) it sends the accumulator iff a transmission is pending, and in
either case resets `radix = 10`, accumulator `= 0`, pending `= false`. -/
theorem C6_write_and_delimiter_tokens (s : InterpState) (c : Nat) :
    ((c = 119 ∨ c = 87) →
      interpStep s c =
        { s with bus := (send_via_twi (s.writeValues.headD 0 % 256) s.bus).2,
                 writeValues := s.writeValues.tail,
                 radix := 10, to_transmit := 0, is_transmission := false }) ∧
    ((c = 32 ∨ c = 44) →
      interpStep s c =
        if s.is_transmission then
          { s with bus := (send_via_twi s.to_transmit s.bus).2,
                   radix := 10, to_transmit := 0, is_transmission := false }
        else
          { s with radix := 10, to_transmit := 0, is_transmission := false }) := by
  constructor
  · rintro (rfl | rfl) <;>
      simp [interpStep, delimiterAction]
  · rintro (rfl | rfl) <;>
      · by_cases ht : s.is_transmission <;>
          simp [interpStep, delimiterAction, ht]

/-- Witness for claim C6 at a concrete state and the tokens `w` and
space. -/
theorem C6_write_and_delimiter_tokens_witness :
    interpStep (initInterp c3AckDev [0x41]) 119 =
      { initInterp c3AckDev [0x41] with
          bus := (send_via_twi (([0x41] : List Nat).headD 0 % 256)
                    (initInterp c3AckDev [0x41]).bus).2,
          writeValues := ([0x41] : List Nat).tail,
          radix := 10, to_transmit := 0, is_transmission := false } ∧
    interpStep (initInterp c3AckDev [0x41]) 32 =
      if (initInterp c3AckDev [0x41]).is_transmission then
        { initInterp c3AckDev [0x41] with
            bus := (send_via_twi (initInterp c3AckDev [0x41]).to_transmit
                      (initInterp c3AckDev [0x41]).bus).2,
            radix := 10, to_transmit := 0, is_transmission := false }
      else
        { initInterp c3AckDev [0x41] with
            radix := 10, to_transmit := 0, is_transmission := false } :=
  ⟨(C6_write_and_delimiter_tokens (initInterp c3AckDev [0x41]) 119).1 (Or.inl rfl),
   (C6_write_and_delimiter_tokens (initInterp c3AckDev [0x41]) 32).2 (Or.inl rfl)⟩

/-- Claim C7: `start_twi_communication` composes the start condition and
the transmission of `address << 1 | direction`: if the start condition
fails it returns false immediately (no address byte is transmitted);
otherwise it returns true iff the status of the address write is
`TW_MT_SLA_ACK` or `TW_MR_SLA_ACK`, and the trace gains the start
followed by the write of `address * 2 + direction`. -/
theorem C7_addressed_start (bs : BusState) (address : Nat)
    (dir : TWIDataDirection) (ha : address < 128) :
    ((send_twi_start_condition bs).1 = false →
      start_twi_communication address dir bs
        = (false, (send_twi_start_condition bs).2)) ∧
    ((send_twi_start_condition bs).1 = true →
      ((start_twi_communication address dir bs).1 = true ↔
        ((raw_twi_write (address * 2 + dir.toBit)
            (send_twi_start_condition bs).2).1 = TW_MT_SLA_ACK ∨
         (raw_twi_write (address * 2 + dir.toBit)
            (send_twi_start_condition bs).2).1 = TW_MR_SLA_ACK))) ∧
    ((send_twi_start_condition bs).1 = true →
      (start_twi_communication address dir bs).2.trace
        = bs.trace ++ [BusOp.start, BusOp.write (address * 2 + dir.toBit)]) := by
  have hmod : address % 256 = address := Nat.mod_eq_of_lt (by omega)
  have hbit : dir.toBit ≤ 1 := by cases dir <;> simp [TWIDataDirection.toBit]
  have hbyte : (address * 2 + dir.toBit) % 256 = address * 2 + dir.toBit :=
    Nat.mod_eq_of_lt (by omega)
  refine ⟨fun h => ?_, fun h => ?_, fun h => ?_⟩
  · simp [start_twi_communication, h]
  · simp [start_twi_communication, h, hmod]
  · have h2 := h
    simp [send_twi_start_condition] at h2
    simp [start_twi_communication, send_twi_start_condition, raw_twi_write,
      hmod, hbyte]
    rcases h2 with h2 | h2 <;> simp [h2]

/-- Witness for claim C7 at address 0x39, direction `Read`, on a fresh
bus over a device that grants the start and acknowledges the address. -/
theorem C7_addressed_start_witness :
    ((send_twi_start_condition (initBus c5AckDev)).1 = false →
      start_twi_communication 0x39 TWIDataDirection.Read (initBus c5AckDev)
        = (false, (send_twi_start_condition (initBus c5AckDev)).2)) ∧
    ((send_twi_start_condition (initBus c5AckDev)).1 = true →
      ((start_twi_communication 0x39 TWIDataDirection.Read (initBus c5AckDev)).1
          = true ↔
        ((raw_twi_write (0x39 * 2 + TWIDataDirection.Read.toBit)
            (send_twi_start_condition (initBus c5AckDev)).2).1 = TW_MT_SLA_ACK ∨
         (raw_twi_write (0x39 * 2 + TWIDataDirection.Read.toBit)
            (send_twi_start_condition (initBus c5AckDev)).2).1 = TW_MR_SLA_ACK))) ∧
    ((send_twi_start_condition (initBus c5AckDev)).1 = true →
      (start_twi_communication 0x39 TWIDataDirection.Read
          (initBus c5AckDev)).2.trace
        = (initBus c5AckDev).trace
            ++ [BusOp.start, BusOp.write (0x39 * 2 + TWIDataDirection.Read.toBit)]) :=
  C7_addressed_start (initBus c5AckDev) 0x39 TWIDataDirection.Read (by decide)

/-- Helper: a character that classifies as a digit under the current
radix, and is not the code 98 (`b`, which the switch claims first as the
binary-radix token), reaches the default case and accumulates into the
8-bit accumulator under the radix in effect at that moment. -/
theorem interpStep_digit (s : InterpState) (c v : Nat) (hb : c ≠ 98)
    (hv : digit_value s.radix c = some v) :
    interpStep s c =
      { s with is_transmission := true,
               to_transmit := (s.to_transmit * s.radix % 256 + v) % 256 } := by
  have hrange : (97 ≤ c ∧ c ≤ 102) ∨ (65 ≤ c ∧ c ≤ 70) ∨ (48 ≤ c ∧ c ≤ 57) := by
    unfold digit_value at hv
    split_ifs at hv with h1 h2 h3 h4 <;> omega
  unfold interpStep
  repeat rw [if_neg (by omega)]
  rw [hv]

/-- Claim C8: a radix-switch token affects only digits scanned after it.
Each digit character (code `c`, digit value `v` under the radix in
effect) is accumulated as `accumulator * radix + v` under that current
radix; the `x` (code 120) and `b` (code 98) tokens change only the radix,
leaving the accumulator untouched; and in particular scanning `0x1F` from
a fresh state takes the `0` step while the radix is still 10, and the
whole literal still accumulates to 0x1F. -/
theorem C8_radix_affects_only_later_digits (s : InterpState) (c v : Nat)
    (hb : c ≠ 98) (hv : digit_value s.radix c = some v) :
    interpStep s c =
      { s with is_transmission := true,
               to_transmit := (s.to_transmit * s.radix % 256 + v) % 256 } ∧
    (∀ t : InterpState, interpStep t 120 = { t with radix := 16 } ∧
        interpStep t 98 = { t with radix := 2 }) ∧
    (∀ (dev : MockDevice) (ws : List Nat),
        (interpStep (initInterp dev ws) 48).radix = 10 ∧
        (interpStep (initInterp dev ws) 48).to_transmit = 0 ∧
        (interpRun (initInterp dev ws) (cmdBytes ("0x1F"))).to_transmit
          = 0x1F) := by
  refine ⟨interpStep_digit s c v hb hv, fun t => ⟨?_, ?_⟩, fun dev ws => ⟨?_, ?_, ?_⟩⟩
  · simp [interpStep]
  · simp [interpStep]
  · rfl
  · rfl
  · rfl

/-- Witness for claim C8 at a concrete state (radix 16 after an `x`
token) and the digit character `5` (code 53, value 5). -/
theorem C8_radix_affects_only_later_digits_witness :
    interpStep { initInterp c3AckDev [] with radix := 16 } 53 =
      { { initInterp c3AckDev [] with radix := 16 } with
          is_transmission := true,
          to_transmit :=
            ({ initInterp c3AckDev [] with radix := 16 }.to_transmit * 16 % 256
              + 5) % 256 } ∧
    (∀ t : InterpState, interpStep t 120 = { t with radix := 16 } ∧
        interpStep t 98 = { t with radix := 2 }) ∧
    (∀ (dev : MockDevice) (ws : List Nat),
        (interpStep (initInterp dev ws) 48).radix = 10 ∧
        (interpStep (initInterp dev ws) 48).to_transmit = 0 ∧
        (interpRun (initInterp dev ws) (cmdBytes ("0x1F"))).to_transmit
          = 0x1F) :=
  C8_radix_affects_only_later_digits
    { initInterp c3AckDev [] with radix := 16 } 53 5 (by decide) (by decide)

/-- Helper: running the interpreter over a concatenation splits. -/
theorem interpRun_append (s : InterpState) (xs ys : List Nat) :
    interpRun s (xs ++ ys) = interpRun (interpRun s xs) ys := by
  induction xs generalizing s with
  | nil => rfl
  | cons c cs ih => simpa [interpRun] using ih (interpStep s c)

/-- Helper: a run over the character codes of decimal digits, from a
state whose radix is 10, folds the digits into the 8-bit accumulator,
sets the transmission flag if a digit was scanned, and changes nothing
else. -/
theorem interpRun_decimal_digits (ds : List Nat) (s : InterpState)
    (hr : s.radix = 10) (hds : ∀ d ∈ ds, d ≤ 9) :
    interpRun s (ds.map (fun d => d + 48)) =
      { s with is_transmission := (s.is_transmission || !ds.isEmpty),
               to_transmit :=
                 ds.foldl (fun a d => (a * 10 % 256 + d) % 256) s.to_transmit } := by
  induction ds generalizing s with
  | nil =>
    show s = _
    cases s
    simp
  | cons d rest ih =>
    have hd : d ≤ 9 := hds d (by simp)
    have hv : digit_value s.radix (d + 48) = some d := by
      rw [hr]
      unfold digit_value
      rw [if_neg (by omega), if_neg (by omega), if_pos (by omega)]
      simp
    have hstep := interpStep_digit s (d + 48) d (by omega) hv
    simp only [List.map_cons, interpRun, hstep]
    rw [ih _ (by simp [hr]) (fun e he => hds e (by simp [he]))]
    rw [hr]
    simp

/-- Helper: interleaving the 8-bit reduction with the decimal fold gives
the reduction of the unreduced fold. -/
theorem foldl_digits_mod (ds : List Nat) (a : Nat) :
    ds.foldl (fun x d => (x * 10 % 256 + d) % 256) (a % 256)
      = ds.foldl (fun x d => x * 10 + d) a % 256 := by
  induction ds generalizing a with
  | nil => rfl
  | cons d rest ih =>
    simp only [List.foldl_cons]
    rw [Nat.mod_mul_mod, Nat.mod_add_mod, ← ih]

/-- Claim C10: the accumulator is an 8-bit byte.  Each digit step
computes `accumulator := (accumulator * radix + digitValue) mod 256`, and
for every decimal literal the byte handed to the write operation at the
closing delimiter is the literal's value reduced modulo 256 — in
particular literals of value 256 or more are written reduced. -/
theorem C10_accumulator_is_8_bit (dev : MockDevice) (ws : List Nat)
    (ds : List Nat) (hne : ds ≠ []) (hds : ∀ d ∈ ds, d ≤ 9) :
    (∀ (s : InterpState) (c v : Nat), c ≠ 98 → digit_value s.radix c = some v →
      (interpStep s c).to_transmit = (s.to_transmit * s.radix + v) % 256) ∧
    (interpRun (initInterp dev ws) (ds.map (fun d => d + 48) ++ [32])).bus.trace
      = [BusOp.write (ds.foldl (fun a d => a * 10 + d) 0 % 256)] := by
  constructor
  · intro s c v hb hv
    rw [interpStep_digit s c v hb hv, Nat.mod_add_mod]
  · rw [interpRun_append, interpRun_decimal_digits ds (initInterp dev ws) rfl hds]
    have hfm := foldl_digits_mod ds 0
    norm_num at hfm
    have hne2 : ds.isEmpty = false := by
      cases ds with
      | nil => exact absurd rfl hne
      | cons d rest => rfl
    simp only [initInterp, hne2, hfm]
    simp [interpRun, interpStep, delimiterAction, send_via_twi, raw_twi_write,
      initBus, Nat.mod_mod_of_dvd]
    rw [hfm]
    omega

/-- Helper: the interpreter step preserves observable equality of two
runs over different devices — no branch of the switch lets the device's
responses influence anything but the bytes stored in the read slots. -/
theorem interpStep_obsEq (s t : InterpState) (c : Nat) (h : ObsEq s t) :
    ObsEq (interpStep s c) (interpStep t c) := by
  obtain ⟨h1, h2, h3, h4, h5, h6, h7, h8, h9⟩ := h
  unfold interpStep
  by_cases hc1 : c = 123 ∨ c = 91
  · simp only [if_pos hc1]
    simp [ObsEq, send_twi_start_condition, h1, h2, h3, h4, h5, h6, h7, h8, h9]
  simp only [if_neg hc1]
  by_cases hc2 : c = 125 ∨ c = 93
  · simp only [if_pos hc2]
    simp [ObsEq, end_twi_packet, h1, h2, h3, h4, h5, h6, h7, h8, h9]
  simp only [if_neg hc2]
  by_cases hc3 : c = 120
  · simp only [if_pos hc3]
    exact ⟨rfl, h2, h3, h4, h5, h6, h7, h8, h9⟩
  simp only [if_neg hc3]
  by_cases hc4 : c = 98
  · simp only [if_pos hc4]
    exact ⟨rfl, h2, h3, h4, h5, h6, h7, h8, h9⟩
  simp only [if_neg hc4]
  by_cases hc5 : c = 114 ∨ c = 82 ∨ c = 115 ∨ c = 83
  · simp only [if_pos hc5]
    simp [ObsEq, read_via_twi, h1, h2, h3, h4, h5, h6, h7, h8, h9]
  simp only [if_neg hc5]
  by_cases hc6 : c = 119 ∨ c = 87
  · simp only [if_pos hc6]
    unfold delimiterAction
    simp [ObsEq, send_via_twi, raw_twi_write, h1, h2, h3, h4, h5, h6, h7, h8, h9]
  simp only [if_neg hc6]
  by_cases hc7 : c = 32 ∨ c = 44
  · simp only [if_pos hc7]
    unfold delimiterAction
    rw [h3]
    by_cases hts : t.is_transmission
    · simp [hts, ObsEq, send_via_twi, raw_twi_write,
        h1, h2, h4, h5, h6, h7, h8, h9]
    · simp [hts, ObsEq, h1, h2, h4, h5, h6, h7, h8, h9]
  simp only [if_neg hc7]
  by_cases hc8 : c = 38
  · simp only [if_pos hc8]
    simp [ObsEq, h1, h2, h3, h4, h5, h6, h7, h8, h9]
  simp only [if_neg hc8]
  rw [h1]
  cases hdv : digit_value t.radix c with
  | none => simp [hdv, ObsEq, h1, h2, h3, h4, h5, h6, h7, h8, h9]
  | some v => simp [hdv, ObsEq, h1, h2, h3, h4, h5, h6, h7, h8, h9]

/-- Helper: observable equality is preserved by whole runs. -/
theorem interpRun_obsEq (l : List Nat) (s t : InterpState) (h : ObsEq s t) :
    ObsEq (interpRun s l) (interpRun t l) := by
  induction l generalizing s t with
  | nil => exact h
  | cons c cs ih => exact ih _ _ (interpStep_obsEq s t c h)

/-- Claim C9: the interpreter never inspects the success or failure of
the bus primitives it invokes: for every command string and write-value
list, the scan runs the whole string and both the returned `read_count`
and the entire operation trace are identical over any two devices —
in particular they are unaffected by arbitration losses or NACKs. -/
theorem C9_device_responses_ignored (command ws : List Nat)
    (dev dev2 : MockDevice) :
    (perform_bus_pirate_twi_command dev command ws).read_count
      = (perform_bus_pirate_twi_command dev2 command ws).read_count ∧
    (perform_bus_pirate_twi_command dev command ws).bus.trace
      = (perform_bus_pirate_twi_command dev2 command ws).bus.trace := by
  have h := interpRun_obsEq command (initInterp dev ws) (initInterp dev2 ws)
    ⟨rfl, rfl, rfl, rfl, rfl, rfl, rfl, rfl, rfl⟩
  exact ⟨h.2.2.2.1, h.2.2.2.2.2.2.2.2⟩

/-- Helper: a `uint32_t` value of the form `(q + 2^32 - c) % 2^32` that
is at most 255 did not underflow: `c ≤ q` and the value is `q - c`. -/
theorem clock_val_core (q c : Nat) (hc : c ≤ 8) (hq32 : q < U32)
    (hle : (q + U32 - c) % U32 ≤ 255) :
    c ≤ q ∧ (q + U32 - c) % U32 = q - c := by
  have hU : U32 = 4294967296 := rfl
  rw [hU] at hq32 hle ⊢
  omega

/-- Helper: the distance between the truncated divisor `fcpu / B - c` and
the exact rational divisor `(fcpu - (c + e) * B) / B` is below 1 whenever
`0 ≤ e < 1` (`e` is the part of `8 / 4^p` lost by the shift). -/
theorem trunc_error_lt_one (fcpu B c : Nat) (e : ℚ) (hB : 0 < B)
    (hc : c ≤ fcpu / B) (he0 : 0 ≤ e) (he1 : e < 1) :
    |((fcpu / B - c : Nat) : ℚ)
      - (((fcpu : ℚ) - ((c : ℚ) + e) * (B : ℚ)) / (B : ℚ))| < 1 := by
  have hB0 : (0:ℚ) < (B:ℚ) := by exact_mod_cast hB
  have hdm : ((B:ℚ)) * ((fcpu / B : Nat) : ℚ) + ((fcpu % B : Nat) : ℚ)
      = (fcpu : ℚ) := by
    exact_mod_cast Nat.div_add_mod fcpu B
  have hrlt : ((fcpu % B : Nat) : ℚ) < (B:ℚ) := by
    exact_mod_cast Nat.mod_lt fcpu hB
  have hr0 : (0:ℚ) ≤ ((fcpu % B : Nat) : ℚ) := by positivity
  rw [Nat.cast_sub hc]
  have key : ((fcpu / B : Nat) : ℚ) - (c : ℚ)
      - (((fcpu : ℚ) - ((c : ℚ) + e) * (B : ℚ)) / (B : ℚ))
      = e - ((fcpu % B : Nat) : ℚ) / (B : ℚ) := by
    field_simp
    linarith [hdm]
  rw [key, abs_lt]
  have h1 : ((fcpu % B : Nat) : ℚ) / (B : ℚ) < 1 := (div_lt_one hB0).mpr hrlt
  have h2 : (0:ℚ) ≤ ((fcpu % B : Nat) : ℚ) / (B : ℚ) := by positivity
  constructor <;> linarith

/-- Helper: at any prescaler exponent `p ≤ 3` whose computed divisor is
at most 255, the computed divisor equals the spec's truncating formula
`baseClockHz / (targetBitrateHz * 4^p * 2) - 8 / 4^p`, and it is within
1 of the exact rational solution of the bitrate identity. -/
theorem clock_formula (fcpu t p : Nat) (hp : p ≤ 3) (ht : 0 < t)
    (hmul : 128 * t < U32) (hf : fcpu < U32)
    (hle : clock_periods_from_prescaler fcpu t p ≤ 255) :
    clock_periods_from_prescaler fcpu t p
      = fcpu / (t * 4 ^ p * 2) - 8 / 4 ^ p ∧
    ∃ dstar : ℚ, (t : ℚ) * (16 + 2 * dstar * 4 ^ p) = (fcpu : ℚ) ∧
      |((clock_periods_from_prescaler fcpu t p : Nat) : ℚ) - dstar| < 1 := by
  have hU : U32 = 4294967296 := rfl
  have ht0 : (t:ℚ) ≠ 0 := Nat.cast_ne_zero.mpr ht.ne'
  interval_cases p
  · -- p = 0 : B = 2t, c = 8, e = 0
    have hBlt : 2 * t < U32 := by rw [hU] at hmul ⊢; omega
    have h1 : (2 <<< (2 * 0)) * t = 2 * t := by norm_num [Nat.shiftLeft_eq]
    have hsh : (8:Nat) >>> (0 * 2) = 8 := by decide
    have hval : clock_periods_from_prescaler fcpu t 0
        = (fcpu / (2 * t) + U32 - 8) % U32 := by
      unfold clock_periods_from_prescaler
      rw [h1, Nat.mod_eq_of_lt hBlt, hsh]
    rw [hval] at hle
    obtain ⟨hcq, heq⟩ := clock_val_core (fcpu / (2 * t)) 8 (by norm_num)
      (lt_of_le_of_lt (Nat.div_le_self _ _) hf) hle
    have hBform : t * 4 ^ 0 * 2 = 2 * t := by ring
    have hcform : (8:Nat) / 4 ^ 0 = 8 := by norm_num
    refine ⟨by rw [hval, heq, hBform, hcform], ?_⟩
    refine ⟨((fcpu : ℚ) - (((8:Nat) : ℚ) + 0) * ((2 * t : Nat) : ℚ))
        / ((2 * t : Nat) : ℚ), ?_, ?_⟩
    · push_cast
      field_simp
      ring
    · rw [hval, heq]
      exact trunc_error_lt_one fcpu (2 * t) 8 0 (by omega) hcq le_rfl
        (by norm_num)
  · -- p = 1 : B = 8t, c = 2, e = 0
    have hBlt : 8 * t < U32 := by rw [hU] at hmul ⊢; omega
    have h1 : (2 <<< (2 * 1)) * t = 8 * t := by norm_num [Nat.shiftLeft_eq]
    have hsh : (8:Nat) >>> (1 * 2) = 2 := by decide
    have hval : clock_periods_from_prescaler fcpu t 1
        = (fcpu / (8 * t) + U32 - 2) % U32 := by
      unfold clock_periods_from_prescaler
      rw [h1, Nat.mod_eq_of_lt hBlt, hsh]
    rw [hval] at hle
    obtain ⟨hcq, heq⟩ := clock_val_core (fcpu / (8 * t)) 2 (by norm_num)
      (lt_of_le_of_lt (Nat.div_le_self _ _) hf) hle
    have hBform : t * 4 ^ 1 * 2 = 8 * t := by ring
    have hcform : (8:Nat) / 4 ^ 1 = 2 := by norm_num
    refine ⟨by rw [hval, heq, hBform, hcform], ?_⟩
    refine ⟨((fcpu : ℚ) - (((2:Nat) : ℚ) + 0) * ((8 * t : Nat) : ℚ))
        / ((8 * t : Nat) : ℚ), ?_, ?_⟩
    · push_cast
      field_simp
      ring
    · rw [hval, heq]
      exact trunc_error_lt_one fcpu (8 * t) 2 0 (by omega) hcq le_rfl
        (by norm_num)
  · -- p = 2 : B = 32t, c = 0, e = 1/2
    have hBlt : 32 * t < U32 := by rw [hU] at hmul ⊢; omega
    have h1 : (2 <<< (2 * 2)) * t = 32 * t := by norm_num [Nat.shiftLeft_eq]
    have hsh : (8:Nat) >>> (2 * 2) = 0 := by decide
    have hval : clock_periods_from_prescaler fcpu t 2
        = (fcpu / (32 * t) + U32 - 0) % U32 := by
      unfold clock_periods_from_prescaler
      rw [h1, Nat.mod_eq_of_lt hBlt, hsh]
    rw [hval] at hle
    obtain ⟨hcq, heq⟩ := clock_val_core (fcpu / (32 * t)) 0 (by norm_num)
      (lt_of_le_of_lt (Nat.div_le_self _ _) hf) hle
    have hBform : t * 4 ^ 2 * 2 = 32 * t := by ring
    have hcform : (8:Nat) / 4 ^ 2 = 0 := by norm_num
    refine ⟨by rw [hval, heq, hBform, hcform], ?_⟩
    refine ⟨((fcpu : ℚ) - (((0:Nat) : ℚ) + 1/2) * ((32 * t : Nat) : ℚ))
        / ((32 * t : Nat) : ℚ), ?_, ?_⟩
    · push_cast
      field_simp
      ring
    · rw [hval, heq]
      exact trunc_error_lt_one fcpu (32 * t) 0 (1/2) (by omega) hcq
        (by norm_num) (by norm_num)
  · -- p = 3 : B = 128t, c = 0, e = 1/8
    have hBlt : 128 * t < U32 := by rw [hU] at hmul ⊢; omega
    have h1 : (2 <<< (2 * 3)) * t = 128 * t := by norm_num [Nat.shiftLeft_eq]
    have hsh : (8:Nat) >>> (3 * 2) = 0 := by decide
    have hval : clock_periods_from_prescaler fcpu t 3
        = (fcpu / (128 * t) + U32 - 0) % U32 := by
      unfold clock_periods_from_prescaler
      rw [h1, Nat.mod_eq_of_lt hBlt, hsh]
    rw [hval] at hle
    obtain ⟨hcq, heq⟩ := clock_val_core (fcpu / (128 * t)) 0 (by norm_num)
      (lt_of_le_of_lt (Nat.div_le_self _ _) hf) hle
    have hBform : t * 4 ^ 3 * 2 = 128 * t := by ring
    have hcform : (8:Nat) / 4 ^ 3 = 0 := by norm_num
    refine ⟨by rw [hval, heq, hBform, hcform], ?_⟩
    refine ⟨((fcpu : ℚ) - (((0:Nat) : ℚ) + 1/8) * ((128 * t : Nat) : ℚ))
        / ((128 * t : Nat) : ℚ), ?_, ?_⟩
    · push_cast
      field_simp
      ring
    · rw [hval, heq]
      exact trunc_error_lt_one fcpu (128 * t) 0 (1/8) (by omega) hcq
        (by norm_num) (by norm_num)

/-- Claim C4: whenever some prescaler exponent in {0,1,2,3} yields a
divisor ≤ 255 (and the `uint32_t` arithmetic neither overflows nor
divides by zero: `0 < targetBitrateHz`, `128 * targetBitrateHz < 2^32`,
`baseClockHz < 2^32`), the search selects the smallest such exponent and
the divisor `baseClockHz / (targetBitrateHz * 4^p * 2) - 8 / 4^p` with
truncating integer division; the result has `p ≤ 3` and
`divisor ∈ [0, 255]`, is written unchanged to the hardware registers,
and the divisor is within truncation distance (less than 1) of the exact
rational solution of
`targetBitrateHz * (16 + 2 * divisor * 4^p) = baseClockHz`. -/
theorem C4_clock_configuration (fcpu t p d : Nat) (ht : 0 < t)
    (hmul : 128 * t < U32) (hf : fcpu < U32)
    (hex : ∃ q, q ≤ 3 ∧ clock_periods_from_prescaler fcpu t q ≤ 255)
    (hres : twi_prescaler_search fcpu t = (p, d)) :
    p ≤ 3 ∧ d ≤ 255 ∧
    (∀ q, q < p → 255 < clock_periods_from_prescaler fcpu t q) ∧
    d = fcpu / (t * 4 ^ p * 2) - 8 / 4 ^ p ∧
    set_up_twi_hardware fcpu t = { twsr_prescaler := p, twbr := d } ∧
    (∃ dstar : ℚ, (t : ℚ) * (16 + 2 * dstar * 4 ^ p) = (fcpu : ℚ) ∧
      |(d : ℚ) - dstar| < 1) := by
  have hsu : set_up_twi_hardware fcpu t
      = { twsr_prescaler := p, twbr := d % 256 } := by
    simp [set_up_twi_hardware, hres]
  unfold twi_prescaler_search at hres
  split_ifs at hres with h0 h1 h2
  · -- p = 3
    injection hres with hp hd
    subst hp
    obtain ⟨q, hq3, hqle⟩ := hex
    have hle : clock_periods_from_prescaler fcpu t 3 ≤ 255 := by
      rcases q with _ | _ | _ | _ | q
      · exact absurd hqle (not_le.mpr h0)
      · exact absurd hqle (not_le.mpr h1)
      · exact absurd hqle (not_le.mpr h2)
      · exact hqle
      · exact absurd hq3
          (Nat.not_le.mpr (Nat.lt_of_lt_of_le (by norm_num) (Nat.le_add_left 4 q)))
    subst hd
    obtain ⟨hform, hstar⟩ := clock_formula fcpu t 3 (by norm_num) ht hmul hf hle
    refine ⟨by norm_num, hle, ?_, hform, ?_, hstar⟩
    · intro q hq
      rcases q with _ | _ | _ | q
      · exact h0
      · exact h1
      · exact h2
      · exact absurd hq (Nat.not_lt.mpr (Nat.le_add_left 3 q))
    · rw [hsu]
      simp only [TWIClockRegisters.mk.injEq]
      exact ⟨trivial, Nat.mod_eq_of_lt (lt_of_le_of_lt hle (by norm_num))⟩
  · -- p = 2
    injection hres with hp hd
    subst hp
    have hle : clock_periods_from_prescaler fcpu t 2 ≤ 255 :=
      Nat.le_of_not_lt h2
    subst hd
    obtain ⟨hform, hstar⟩ := clock_formula fcpu t 2 (by norm_num) ht hmul hf hle
    refine ⟨by norm_num, hle, ?_, hform, ?_, hstar⟩
    · intro q hq
      rcases q with _ | _ | q
      · exact h0
      · exact h1
      · exact absurd hq (Nat.not_lt.mpr (Nat.le_add_left 2 q))
    · rw [hsu]
      simp only [TWIClockRegisters.mk.injEq]
      exact ⟨trivial, Nat.mod_eq_of_lt (lt_of_le_of_lt hle (by norm_num))⟩
  · -- p = 1
    injection hres with hp hd
    subst hp
    have hle : clock_periods_from_prescaler fcpu t 1 ≤ 255 :=
      Nat.le_of_not_lt h1
    subst hd
    obtain ⟨hform, hstar⟩ := clock_formula fcpu t 1 (by norm_num) ht hmul hf hle
    refine ⟨by norm_num, hle, ?_, hform, ?_, hstar⟩
    · intro q hq
      rcases q with _ | q
      · exact h0
      · exact absurd hq (Nat.not_lt.mpr (Nat.le_add_left 1 q))
    · rw [hsu]
      simp only [TWIClockRegisters.mk.injEq]
      exact ⟨trivial, Nat.mod_eq_of_lt (lt_of_le_of_lt hle (by norm_num))⟩
  · -- p = 0
    injection hres with hp hd
    subst hp
    have hle : clock_periods_from_prescaler fcpu t 0 ≤ 255 :=
      Nat.le_of_not_lt h0
    subst hd
    obtain ⟨hform, hstar⟩ := clock_formula fcpu t 0 (by norm_num) ht hmul hf hle
    refine ⟨by norm_num, hle, ?_, hform, ?_, hstar⟩
    · intro q hq
      exact absurd hq (Nat.not_lt_zero q)
    · rw [hsu]
      simp only [TWIClockRegisters.mk.injEq]
      exact ⟨trivial, Nat.mod_eq_of_lt (lt_of_le_of_lt hle (by norm_num))⟩

/-- Witness for claim C4 at `(8000000, 100000)`: the search selects
prescaler exponent 0 and divisor 32, written unchanged to the registers. -/
theorem C4_clock_configuration_witness :
    (0:Nat) ≤ 3 ∧ (32:Nat) ≤ 255 ∧
    (∀ q, q < 0 → 255 < clock_periods_from_prescaler 8000000 100000 q) ∧
    32 = 8000000 / (100000 * 4 ^ 0 * 2) - 8 / 4 ^ 0 ∧
    set_up_twi_hardware 8000000 100000 = { twsr_prescaler := 0, twbr := 32 } ∧
    (∃ dstar : ℚ, ((100000 : Nat) : ℚ) * (16 + 2 * dstar * 4 ^ 0)
        = ((8000000 : Nat) : ℚ) ∧
      |((32 : Nat) : ℚ) - dstar| < 1) :=
  C4_clock_configuration 8000000 100000 0 32 (by norm_num) (by decide)
    (by decide) ⟨0, by norm_num, by decide⟩ (by decide)

/-- Witness for claim C10 with the literal `300` (digits 3, 0, 0):
the byte written is 300 mod 256 = 44. -/
theorem C10_accumulator_is_8_bit_witness :
    (∀ (s : InterpState) (c v : Nat), c ≠ 98 → digit_value s.radix c = some v →
      (interpStep s c).to_transmit = (s.to_transmit * s.radix + v) % 256) ∧
    (interpRun (initInterp c3AckDev [])
        (([3, 0, 0] : List Nat).map (fun d => d + 48) ++ [32])).bus.trace
      = [BusOp.write (([3, 0, 0] : List Nat).foldl (fun a d => a * 10 + d) 0 % 256)] :=
  C10_accumulator_is_8_bit c3AckDev [] [3, 0, 0] (by decide) (by decide)

end TWI
